import Mathlib

/-!
Verification development for the PT100 Mesh Datalogger host tools.

The Python sources modelled here are:
  * src/host_tools/pt100_csv_plotter.py      (the "plotter" variant)
  * src/host_tools/pt100_csv_plotter_pdf.py  (the "pdf" variant)
  * src/host_tools/mesh_ingest.py            (the serial ingest CLI)

Modelling conventions:
  * A pandas cell is a `Value`: text, numeric (exact rationals stand in for
    floats; no computation here is sensitive to binary rounding), or the
    missing marker (NaN / pd.NA / NaT).
  * A DataFrame is a `Frame`: an explicit list of column names plus rows
    given as association lists; a key absent from a row reads as missing,
    which models the NaN padding pandas inserts on concat.
  * Timestamps are rational numbers of seconds since the Unix epoch.
    A tz-aware pandas Timestamp is modelled by its UTC instant together
    with its fixed offset (seconds east of UTC) carried separately.
  * Library parsing calls (pd.to_datetime, datetime.fromisoformat,
    datetime.strptime, pd.to_numeric, float()/int()) are modelled by small
    explicit scanners covering the grammar fragments the log files and the
    GUI inputs exercise; each scanner's doc comment states the fragment.
-/

/- Rational arithmetic is kept definitionally transparent so that concrete
runs of the modelled functions can be settled by `decide`; reducibility
attributes do not affect what the kernel accepts. -/
set_option allowUnsafeReducibility true
attribute [semireducible] Rat.add Rat.sub Rat.mul Rat.inv Rat.neg

/-- A single cell of a tabular file: text, a numeric value, or the explicit
missing marker (pandas NaN / NA / NaT). -/
inductive Value where
  | text (s : String)
  | num (q : ℚ)
  | missing
deriving DecidableEq

/-- One row: an association list from column name to cell value. -/
abbrev Row := List (String × Value)

/-- A DataFrame: the set of columns present, plus the rows.  A column name
absent from a row's association list reads as `Value.missing`. -/
structure Frame where
  cols : List String
  rows : List Row
deriving DecidableEq

/-- Decidable equality of `Except` results, for concrete evaluation. -/
def exceptDecEq {ε α : Type} [DecidableEq ε] [DecidableEq α] :
    (a b : Except ε α) → Decidable (a = b)
  | Except.error x, Except.error y =>
    match decEq x y with
    | isTrue h => isTrue (congrArg Except.error h)
    | isFalse h => isFalse (fun hh => h (Except.error.inj hh))
  | Except.ok x, Except.ok y =>
    match decEq x y with
    | isTrue h => isTrue (congrArg Except.ok h)
    | isFalse h => isFalse (fun hh => h (Except.ok.inj hh))
  | Except.error _, Except.ok _ => isFalse (fun hh => Except.noConfusion hh)
  | Except.ok _, Except.error _ => isFalse (fun hh => Except.noConfusion hh)

instance {ε α : Type} [DecidableEq ε] [DecidableEq α] : DecidableEq (Except ε α) :=
  exceptDecEq

/-- Read one cell; a key that is not present yields the missing marker,
matching the NaN a real DataFrame shows for an absent value. -/
def getCell (r : Row) (c : String) : Value := (r.lookup c).getD Value.missing

/-- Column membership test, modelling `c in df.columns`. -/
def Frame.hasCol (f : Frame) (c : String) : Bool := f.cols.contains c

/-- Overwrite (or insert) one cell of a row, modelling `df[c] = v`. -/
def setCell (r : Row) (c : String) (v : Value) : Row :=
  (r.filter (fun p => p.1 ≠ c)) ++ [(c, v)]

/-- Union of column lists in first-appearance order, as produced by
`pd.concat(..., sort=False)`. -/
def unionCols (a b : List String) : List String :=
  a ++ (b.filter (fun c => !(a.contains c)))

/-- `pd.concat(dataframes, ignore_index=True, sort=False)`: rows are
appended in order, columns are the first-appearance union, and rows keep
only the cells of their own source (absent columns read as missing). -/
def concatFrames (fs : List Frame) : Frame :=
  fs.foldl (fun acc f => { cols := unionCols acc.cols f.cols, rows := acc.rows ++ f.rows })
    { cols := [], rows := [] }

/-! ### Character scanning helpers -/

/-- Consume a maximal run of decimal digits, returning the value read, the
number of digits consumed, and the rest of the input. -/
def readDigitsAux : List Char → Nat → Nat → Nat × Nat × List Char
  | c :: cs, acc, n =>
      if c.isDigit then readDigitsAux cs (acc * 10 + (c.toNat - 48)) (n + 1)
      else (acc, n, c :: cs)
  | [], acc, n => (acc, n, [])

/-- Consume a maximal run of decimal digits. -/
def readDigits (cs : List Char) : Nat × Nat × List Char := readDigitsAux cs 0 0

/-- Consume exactly `w` decimal digits (zero-padded fixed-width field). -/
def readFixedAux : Nat → List Char → Nat → Option (Nat × List Char)
  | 0, cs, acc => some (acc, cs)
  | w + 1, c :: cs, acc =>
      if c.isDigit then readFixedAux w cs (acc * 10 + (c.toNat - 48)) else none
  | _ + 1, [], _ => none

/-- Consume exactly `w` decimal digits. -/
def readFixed (w : Nat) (cs : List Char) : Option (Nat × List Char) := readFixedAux w cs 0

/-- Consume between 1 and `cap` digits.  `strptime`'s numeric directives
scan greedily up to their field width; a longer run fails the overall
match here exactly as the trailing digits fail it there. -/
def readCapped (cap : Nat) (cs : List Char) : Option (Nat × List Char) :=
  let r := readDigits cs
  if 1 ≤ r.2.1 ∧ r.2.1 ≤ cap then some (r.1, r.2.2) else none

/-- Consume one expected literal character. -/
def expectChar (ch : Char) : List Char → Option (List Char)
  | c :: cs => if c = ch then some cs else none
  | [] => none

/-- Python `str.strip()` restricted to the space character (the only
whitespace the modelled inputs contain). -/
def stripSpaces (s : String) : List Char :=
  ((s.toList.dropWhile (fun c => c = ' ')).reverse.dropWhile (fun c => c = ' ')).reverse

/-! ### Calendar arithmetic

Conversion between a civil date and days since 1970-01-01 uses the
standard era decomposition; `Int./` and `Int.%` are Euclidean, so the
divisions below floor for the positive divisors used. -/

/-- Gregorian leap-year test. -/
def isLeapYear (y : Int) : Bool :=
  (decide (y % 4 = 0) && !(decide (y % 100 = 0))) || decide (y % 400 = 0)

/-- Days in a month of the Gregorian calendar. -/
def daysInMonth (y : Int) (m : Nat) : Nat :=
  if m = 2 then (if isLeapYear y then 29 else 28)
  else if [4, 6, 9, 11].contains m then 30
  else 31

/-- Days from 1970-01-01 to the civil date y-m-d (m, d already validated). -/
def daysFromCivil (y : Int) (m d : Nat) : Int :=
  let yAdj : Int := if m ≤ 2 then y - 1 else y
  let era : Int := yAdj / 400
  let yoe : Int := yAdj - era * 400
  let mp : Int := if 2 < m then (m : Int) - 3 else (m : Int) + 9
  let doy : Int := (153 * mp + 2) / 5 + (d : Int) - 1
  let doe : Int := yoe * 365 + yoe / 4 - yoe / 100 + doy
  era * 146097 + doe - 719468

/-- Seconds since the Unix epoch of a validated civil date-time. -/
def civilSeconds (y : Int) (m d h mi s : Nat) : Int :=
  86400 * daysFromCivil y m d + 3600 * (h : Int) + 60 * (mi : Int) + (s : Int)

/-- Validity of the calendar fields of a date. -/
def validDate (y : Int) (m d : Nat) : Bool :=
  decide (1 ≤ m) && decide (m ≤ 12) && decide (1 ≤ d) && decide (d ≤ daysInMonth y m)

/-- Validity of the fields of a clock time. -/
def validClock (h mi s : Nat) : Bool :=
  decide (h ≤ 23) && decide (mi ≤ 59) && decide (s ≤ 59)

/-! ### Timestamp string parsing -/

/-- Parse a zero-padded `YYYY-MM-DD` date prefix and validate it. -/
def parseDatePadded (cs : List Char) : Option (Int × Nat × Nat × List Char) := do
  let (y, cs) ← readFixed 4 cs
  let cs ← expectChar '-' cs
  let (m, cs) ← readFixed 2 cs
  let cs ← expectChar '-' cs
  let (d, cs) ← readFixed 2 cs
  if validDate (y : Int) m d then some ((y : Int), m, d, cs) else none

/-- Drop an optional fractional-seconds suffix `.digits`.  The fractional
value itself is discarded: every use either floors to whole minutes or
never compares below one second. -/
def dropFraction : List Char → List Char
  | '.' :: c :: cs => if c.isDigit then (readDigits cs).2.2 else '.' :: c :: cs
  | cs => cs

/-- Parse a zero-padded clock `HH:MM[:SS[.ffffff]]` and validate it. -/
def parseClockPadded (cs : List Char) : Option (Nat × Nat × Nat × List Char) := do
  let (h, cs) ← readFixed 2 cs
  let cs ← expectChar ':' cs
  let (mi, cs) ← readFixed 2 cs
  match expectChar ':' cs with
  | some cs2 => do
      let (s, cs3) ← readFixed 2 cs2
      if validClock h mi s then some (h, mi, s, dropFraction cs3) else none
  | none => if validClock h mi 0 then some (h, mi, 0, cs) else none

/-- Parse a UTC-offset suffix `±HH:MM`, returning seconds east of UTC. -/
def parseOffsetHM (cs : List Char) : Option (Int × List Char) := do
  let (oh, cs) ← readFixed 2 cs
  let cs ← expectChar ':' cs
  let (om, cs) ← readFixed 2 cs
  if oh ≤ 23 ∧ om ≤ 59 then some (((3600 * oh + 60 * om : Nat) : Int), cs) else none

/-- Model of `pd.to_datetime(value, errors="coerce", utc=False)` applied to
one cell of the `iso8601_local` column.  The grammar covered is the log
format: `YYYY-MM-DD`, optionally followed by a space or `T` and
`HH:MM[:SS[.ffffff]]`, optionally followed by `Z` or `±HH:MM`.  Returns
the UTC instant in seconds and the fixed offset (seconds east) when one
was present in the string; anything else coerces to missing. -/
def parseIsoChars (cs : List Char) : Option (Int × Option Int) := do
  let (y, m, d, rest) ← parseDatePadded cs
  match rest with
  | [] => some (civilSeconds y m d 0 0 0, none)
  | sep :: rest2 =>
    if sep = ' ' ∨ sep = 'T' then do
      let (h, mi, s, rest3) ← parseClockPadded rest2
      let naive := civilSeconds y m d h mi s
      match rest3 with
      | [] => some (naive, none)
      | 'Z' :: rest4 => if rest4 = [] then some (naive, some 0) else none
      | '+' :: rest4 => do
          let (o, rest5) ← parseOffsetHM rest4
          if rest5 = [] then some (naive - o, some o) else none
      | '-' :: rest4 => do
          let (o, rest5) ← parseOffsetHM rest4
          if rest5 = [] then some (naive + o, some (-o)) else none
      | _ => none
    else none

/-- Cell-level timestamp coercion: only text cells can parse; numeric and
missing cells coerce to missing (the numeric-as-nanoseconds corner of
`pd.to_datetime` is outside the modelled log format). -/
def parseIsoLocal (v : Value) : Option (ℚ × Option Int) :=
  match v with
  | Value.text s => (parseIsoChars (stripSpaces s)).map (fun p => ((p.1 : ℚ), p.2))
  | _ => none

/-- Model of `_safe_parse_user_time` from pt100_csv_plotter.py: strip, and
on empty input return absence; replace `T` by a space and `/` by `-`; then
`datetime.fromisoformat`, modelled on the offset-free fragment
`YYYY-MM-DD[ HH:MM[:SS[.ffffff]]]` (zero-padded, as fromisoformat
requires before Python 3.11).  Failure returns `none` silently — the
caller treats it exactly like an absent boundary.  Returns naive
wall-clock seconds. -/
def plotterParseUserTime (s : String) : Option ℚ :=
  let cs := (stripSpaces s).map (fun c => if c = 'T' then ' ' else if c = '/' then '-' else c)
  if cs.isEmpty then none
  else
    match parseDatePadded cs with
    | none => none
    | some (y, m, d, rest) =>
      match rest with
      | [] => some ((civilSeconds y m d 0 0 0 : Int) : ℚ)
      | ' ' :: rest2 =>
        match parseClockPadded rest2 with
        | some (h, mi, sec, []) => some ((civilSeconds y m d h mi sec : Int) : ℚ)
        | _ => none
      | _ => none

/-- One `strptime` format of `_parse_user_time` from
pt100_csv_plotter_pdf.py: `%Y-%m-%d` then `sep` then `%H:%M`, with
`strptime`'s flexible field widths and calendar validation.  No seconds
field and no slash-separated dates are accepted. -/
def pdfParseFmt (sep : Char) (cs : List Char) : Option ℚ := do
  let (y, cs) ← readCapped 4 cs
  let cs ← expectChar '-' cs
  let (m, cs) ← readCapped 2 cs
  let cs ← expectChar '-' cs
  let (d, cs) ← readCapped 2 cs
  let cs ← expectChar sep cs
  let (h, cs) ← readCapped 2 cs
  let cs ← expectChar ':' cs
  let (mi, cs) ← readCapped 2 cs
  if cs = [] ∧ validDate (y : Int) m d ∧ validClock h mi 0 then
    some ((civilSeconds (y : Int) m d h mi 0 : Int) : ℚ)
  else none

/-- Model of `_parse_user_time` from pt100_csv_plotter_pdf.py: empty text
is absence; otherwise the text must match `%Y-%m-%d %H:%M` or
`%Y-%m-%dT%H:%M`, and any other shape raises (the InvalidTimeFormat
error). -/
def pdfParseUserTime (s : String) : Except Unit (Option ℚ) :=
  let cs := stripSpaces s
  if cs.isEmpty then .ok none
  else
    match pdfParseFmt ' ' cs with
    | some t => .ok (some t)
    | none =>
      match pdfParseFmt 'T' cs with
      | some t => .ok (some t)
      | none => .error ()

/-- Model of `pd.to_numeric(value, errors="coerce")` on one cell: numeric
cells pass through, text cells parse as a signed decimal numeral with an
optional fractional part, everything else coerces to missing. -/
def parseDecimalChars (cs : List Char) : Option ℚ :=
  let p := match cs with
    | '-' :: rest => ((-1 : ℚ), rest)
    | '+' :: rest => ((1 : ℚ), rest)
    | _ => ((1 : ℚ), cs)
  let r := readDigits p.2
  if r.2.1 = 0 then none
  else
    match r.2.2 with
    | [] => some (p.1 * (r.1 : ℚ))
    | '.' :: rest2 =>
      let fr := readDigits rest2
      if fr.2.1 = 0 ∨ fr.2.2 ≠ [] then none
      else some (p.1 * ((r.1 : ℚ) + (fr.1 : ℚ) / ((10 : ℚ) ^ fr.2.1)))
    | _ => none

/-- Numeric coercion of one cell. -/
def toNumeric (v : Value) : Option ℚ :=
  match v with
  | Value.num q => some q
  | Value.text s => parseDecimalChars (stripSpaces s)
  | Value.missing => none

/-- Floor of a rational, written out so the kernel can evaluate it
(`Int./` is Euclidean division, which floors for the positive
denominator). -/
def qfloor (q : ℚ) : Int := q.num / (q.den : Int)

/-- `Series.dt.floor("min")` on one timestamp: largest multiple of 60
seconds not above it.  Fixed offsets are whole minutes, so flooring the
UTC instant and flooring the wall clock agree. -/
def floorMinute (t : ℚ) : ℚ := 60 * ((qfloor (t / 60) : ℤ) : ℚ)

/-! ### Time source resolution (§4.2) -/

/-- Which column supplies the resolved timestamps of a whole dataset. -/
inductive TimeBasis where
  | iso
  | epoch
deriving DecidableEq

/-! ### A structurally recursive stable sort

`DataFrame.sort_values` is modelled by an insertion sort over a boolean
total preorder.  Every comparison used below includes the original row
position as final tie-break, so the sorted output is the unique ordered
permutation and the choice of algorithm is immaterial; insertion sort is
used because the kernel can evaluate it on concrete inputs. -/

/-- Insert one element into a sorted list. -/
def insertLe {α : Type} (le : α → α → Bool) (x : α) : List α → List α
  | [] => [x]
  | y :: ys => if le x y then x :: y :: ys else y :: insertLe le x ys

/-- Sort a list by repeated insertion. -/
def sortByLe {α : Type} (le : α → α → Bool) : List α → List α
  | [] => []
  | x :: xs => insertLe le x (sortByLe le xs)

/-- Epoch-cell resolution: coerce to numeric, then `epoch_series.where(epoch_series > 0)`
keeps only strictly positive values (values at or below zero, and
non-numeric cells, become missing). -/
def resolveEpochCell (v : Value) : Option ℚ :=
  (toNumeric v).bind (fun q => if 0 < q then some q else none)

/-- The resolved timestamp of one row under a fixed basis: this is the
`__time` cell `_pick_time_source` computes for that row (missing = NaT). -/
def resolveRow (b : TimeBasis) (r : Row) : Option ℚ :=
  match b with
  | TimeBasis.iso => (parseIsoLocal (getCell r "iso8601_local")).map Prod.fst
  | TimeBasis.epoch => resolveEpochCell (getCell r "epoch_utc")

/-- `parsed.notna().any()` for the local-time column. -/
def isoUsable (f : Frame) : Bool := f.rows.any (fun r => (resolveRow TimeBasis.iso r).isSome)

/-- `parsed.notna().any()` for the epoch column. -/
def epochUsable (f : Frame) : Bool := f.rows.any (fun r => (resolveRow TimeBasis.epoch r).isSome)

/-- The tzinfo taken from the first successfully parsed local-time value
(`df["__time"].dropna().iloc[0].tzinfo`): the fixed offset of the first
valid string, or none when that string was naive. -/
def firstIsoOffset (f : Frame) : Option Int :=
  ((f.rows.filterMap (fun r => parseIsoLocal (getCell r "iso8601_local"))).head?).bind Prod.snd

/-- Model of `_pick_time_source` from pt100_csv_plotter.py: prefer the
`iso8601_local` column when it is present and at least one row parses;
otherwise use `epoch_utc` when it is present and at least one row is a
strictly positive number; otherwise fail (the NoUsableTimestamp error).
Returns the basis, `time_is_local`, and the tzinfo (offset in seconds;
`some 0` models `timezone.utc`). -/
def pickTimeSource (f : Frame) : Except Unit (TimeBasis × Bool × Option Int) :=
  if f.hasCol "iso8601_local" && isoUsable f then
    .ok (TimeBasis.iso, true, firstIsoOffset f)
  else if f.hasCol "epoch_utc" && epochUsable f then
    .ok (TimeBasis.epoch, false, some 0)
  else .error ()

/-! ### Loading and merging (§4.1, §4.3) -/

/-- The columns `_load_pt100_csv_files` normalizes to be present. -/
def expectedCols : List String :=
  ["schema_ver", "seq", "epoch_utc", "iso8601_local", "raw_rtd_ohms",
   "raw_temp_c", "cal_temp_c", "flags", "node_id"]

/-- The expected-column normalization loop of `_load_pt100_csv_files`:
`df_all[column_name] = pd.NA` appends each absent expected column in
order; since `expectedCols` has no duplicates this equals the one-shot
union.  Rows are untouched, so the new columns read as missing
everywhere. -/
def ensureExpected (f : Frame) : Frame :=
  { f with cols := unionCols f.cols expectedCols }

/-- Errors of the load stage. -/
inductive LoadErr where
  | noFilesSelected
  | noUsableTimestamp
  | keyError (col : String)
deriving DecidableEq

/-- A row of a loaded dataset: its position in the concatenated input (the
pandas integer index, which `ignore_index=True` assigns and the later
filter and sort preserve), its cells, and its resolved timestamp. -/
structure TRow where
  pos : Nat
  cells : Row
  time : ℚ
deriving DecidableEq

/-- The secondary sort key: the `seq` cell when numeric, otherwise the
missing marker, which `sort_values` places last within a time bucket. -/
def seqKey (r : Row) : Option ℚ := toNumeric (getCell r "seq")

/-- Strict order on optional sequence keys with missing last. -/
def optLtB : Option ℚ → Option ℚ → Bool
  | some a, some b => decide (a < b)
  | some _, none => true
  | none, _ => false

/-- Equality of optional sequence keys. -/
def optEqB : Option ℚ → Option ℚ → Bool
  | some a, some b => decide (a = b)
  | none, none => true
  | _, _ => false

/-- The total preorder realized by `df_all.sort_values([time_column, "seq"])`:
lexicographic on (resolved time, seq key, original position), the last
component expressing that the multi-key sort is stable. -/
def rowLe (a b : TRow) : Bool :=
  decide (a.time < b.time) ||
    (decide (a.time = b.time) &&
      (optLtB (seqKey a.cells) (seqKey b.cells) ||
        (optEqB (seqKey a.cells) (seqKey b.cells) && decide (a.pos ≤ b.pos))))

/-- A merged, resolved, sorted dataset (the `LoadedLog` of the plotter). -/
structure PlotterLog where
  cols : List String
  rows : List TRow
  basis : TimeBasis
  timeIsLocal : Bool
  tz : Option Int
  dropped : Nat
deriving DecidableEq

/-- Rows of the merged frame annotated with position and resolution. -/
def resolvedRows (b : TimeBasis) (f : Frame) : List (Nat × Row × Option ℚ) :=
  f.rows.enum.map (fun p => (p.1, p.2, resolveRow b p.2))

/-- The rows surviving resolution (`df_all[df_all[time_column].notna()]`),
keeping their original concat position, cells, and resolved time. -/
def keptRows (b : TimeBasis) (f : Frame) : List TRow :=
  (resolvedRows b f).filterMap (fun p => p.2.2.map (fun t => TRow.mk p.1 p.2.1 t))

/-- `int(df_all[time_column].isna().sum())`: the rows without a resolved
timestamp. -/
def droppedCount (b : TimeBasis) (f : Frame) : Nat :=
  ((resolvedRows b f).filter (fun p => p.2.2.isNone)).length

/-- Model of `_load_pt100_csv_files` from pt100_csv_plotter.py: concat,
normalize expected columns, pick the time source, count and drop rows
without a resolved timestamp, and sort by time with seq tie-break. -/
def loadPlotter (files : List Frame) : Except LoadErr PlotterLog :=
  if files.isEmpty then .error .noFilesSelected
  else
    match pickTimeSource (ensureExpected (concatFrames files)) with
    | .error _ => .error .noUsableTimestamp
    | .ok (b, isLocal, tz) =>
      .ok { cols := (ensureExpected (concatFrames files)).cols,
            rows := sortByLe rowLe (keptRows b (ensureExpected (concatFrames files))),
            basis := b,
            timeIsLocal := isLocal,
            tz := tz,
            dropped := droppedCount b (ensureExpected (concatFrames files)) }

/-- Model of `_pick_time_source` from pt100_csv_plotter_pdf.py.  The
selection policy is the same two-tier fallback; the function additionally
counts the rows without a usable timestamp.  The filtered copy it builds
(`df = df.loc[usable].copy(); df["__time"] = ...`) rebinds only the local
name and is discarded on return, so it is not part of the observable
result: the caller's frame is returned unchanged. -/
def pdfPickTimeSource (f : Frame) : Except Unit (String × Option Int × Nat) :=
  if f.hasCol "iso8601_local" && isoUsable f then
    .ok ("__time", firstIsoOffset f,
      (f.rows.filter (fun r => (resolveRow TimeBasis.iso r).isNone)).length)
  else if f.hasCol "epoch_utc" && epochUsable f then
    .ok ("__time", some 0,
      (f.rows.filter (fun r => (resolveRow TimeBasis.epoch r).isNone)).length)
  else .error ()

/-- The loaded dataset of the pdf variant. -/
structure PdfLog where
  frame : Frame
  timeColumn : String
  tz : Option Int
  dropped : Nat
deriving DecidableEq

/-- Per-file preprocessing of `_load_csv_files`: tag each frame's rows with
their source file name (`df["__source_file"] = os.path.basename(path)`). -/
def pdfConcat (files : List (String × Frame)) : Frame :=
  concatFrames (files.map (fun p =>
    { cols := unionCols p.2.cols ["__source_file"],
      rows := p.2.rows.map (fun r => setCell r "__source_file" (Value.text p.1)) }))

/-- Model of `_load_csv_files` from pt100_csv_plotter_pdf.py.  After
`_pick_time_source` returns, the caller evaluates
`combined[time_column]` — but the `__time` column was added only to the
discarded local copy, so unless a source file already carried a literal
`__time` column this lookup raises `KeyError`.  The sort-and-return tail
is reachable exactly in that degenerate case; there the column's
cells are re-parsed with `pd.to_datetime(..., errors="coerce")` and the
frame is sorted by that single re-parsed column (missing last), with
`reset_index(drop=True)`.  The real sort is `sort_values` with its
default quicksort: a single-key unstable sort with no secondary key,
whose order on equal keys is unspecified.  It is modelled here as a
deterministic stable sort with the original position as tie-break; no
theorem below draws a conclusion that depends on the order of
equal-key rows (the C5 counterexample uses two distinct keys). -/
def pdfSortedRows (f : Frame) (tc : String) : List Row :=
  (sortByLe
    (fun a b => optLtB a.2.2 b.2.2 || (optEqB a.2.2 b.2.2 && decide (a.1 ≤ b.1)))
    (f.rows.enum.map (fun p => (p.1, p.2, (parseIsoLocal (getCell p.2 tc)).map Prod.fst)))).map
    (fun p => p.2.1)

/-- Model of `_load_csv_files` (see the module comment above
`pdfSortedRows` for the degenerate sort path). -/
def pdfLoadCsvFiles (files : List (String × Frame)) : Except LoadErr PdfLog :=
  if files.isEmpty then .error .noFilesSelected
  else
    match pdfPickTimeSource (pdfConcat files) with
    | .error _ => .error .noUsableTimestamp
    | .ok (tc, tz, dropped) =>
      if (pdfConcat files).cols.contains tc then
        .ok { frame := { cols := (pdfConcat files).cols,
                         rows := pdfSortedRows (pdfConcat files) tc },
              timeColumn := tc, tz := tz, dropped := dropped }
      else .error (.keyError tc)

/-! ### Minute-bucket index and trimming (§4.4, §4.5) -/

/-- Rational order as a Bool, for sorting. -/
def qLeB (a b : ℚ) : Bool := decide (a ≤ b)

/-- `pd.Series(x.unique()).dropna().sort_values()` /
`pd.DatetimeIndex(x.unique()).sort_values()`: the distinct values, sorted
ascending. -/
def dedupSort (l : List ℚ) : List ℚ := sortByLe qLeB l.dedup

/-- The minute-bucket index of a dataset: distinct floored timestamps,
ascending. -/
def minuteIndexOf (rows : List TRow) : List ℚ :=
  dedupSort (rows.map (fun r => floorMinute r.time))

/-- Absolute time distance, `abs((v - target).total_seconds())`. -/
def qdist (a b : ℚ) : ℚ := if a ≤ b then b - a else a - b

/-- One step of the running-minimum scan behind `idxmin()`: keep the
incumbent unless the new candidate is strictly closer, so the first
minimum wins. -/
def argStep (t best v : ℚ) : ℚ := if qdist v t < qdist best t then v else best

/-- Model of `nearest_minute_string` from pt100_csv_plotter.py:
`deltas.idxmin()` returns the label of the first minimal distance in the
(ascending) index, i.e. the earliest entry minimizing the distance. -/
def argminFirst (t : ℚ) : List ℚ → ℚ
  | [] => 0
  | x :: xs => xs.foldl (argStep t) x

/-- Model of `DatetimeIndex.get_indexer([target], method="nearest")` on a
sorted index, as pandas computes it: the pad candidate (last entry at or
below the target) and the backfill candidate (first entry at or above it)
are compared and the pad one is chosen only when strictly closer, so an
exact tie resolves to the later entry. -/
def padBackfillNearest (l : List ℚ) (t : ℚ) : ℚ :=
  match (l.filter (fun x => decide (x ≤ t))).getLast?,
        (l.filter (fun x => decide (t ≤ x))).head? with
  | some a, some b => if t - a < b - t then a else b
  | some a, none => a
  | none, some b => b
  | none, none => 0

/-- The user-entered wall-clock offset adjustment: when the dataset is
tz-aware (`tz = some o`) a naive user time is interpreted as wall time at
that fixed offset, i.e. the UTC instant `u - o`; naive datasets compare
naive-to-naive. -/
def offQ (tz : Option Int) : ℚ :=
  match tz with
  | some o => (o : ℚ)
  | none => 0

/-- Errors of `_validate_and_trim_by_minute` (plotter variant).  The
boundary errors carry exactly the values interpolated into the message:
the earliest and latest index entry (`valid_minutes.iloc[0]`,
`valid_minutes.iloc[-1]`) and the nearest minute.  Note there is no
invalid-format error: an unparseable boundary was already turned into
absence by `_safe_parse_user_time`. -/
inductive PlotterTrimErr where
  | emptyIndex
  | startNotPresent (lo hi nearest : ℚ)
  | endNotPresent (lo hi nearest : ℚ)
  | startAfterEnd
deriving DecidableEq

/-- The summary string of the plotter variant, by cases: `"No trimming
applied."` or `"Trimmed to: start=... end=..."` interpolating the
requested boundary minutes (absence printed as `(none)`). -/
inductive PlotterSummary where
  | noTrim
  | trimmed (s e : Option ℚ)
deriving DecidableEq

/-- Membership validation of one boundary: `none` when the boundary is
absent or present in the index, otherwise the error payload
(lo, hi, nearest). -/
def boundaryCheck (valid : List ℚ) (m? : Option ℚ) : Option (ℚ × ℚ × ℚ) :=
  match m? with
  | none => none
  | some m =>
    if valid.contains m then none
    else some (valid.headD 0, valid.getLastD 0, argminFirst m valid)

/-- A parsed plotter boundary: floored to the minute on the wall clock
(`replace(second=0, microsecond=0)`) and shifted into the dataset's
representation (`attach_tz_if_needed`). -/
def plotterBoundary (tz : Option Int) (txt : String) : Option ℚ :=
  (plotterParseUserTime txt).map (fun u => floorMinute u - offQ tz)

/-- `trimmed = trimmed[time_series >= start_minute]`. -/
def applyStartFilter (m? : Option ℚ) (rows : List TRow) : List TRow :=
  match m? with
  | some sm => rows.filter (fun r => decide (sm ≤ r.time))
  | none => rows

/-- `trimmed = trimmed[time_series < end_minute + 1 minute]`. -/
def applyEndFilter (m? : Option ℚ) (rows : List TRow) : List TRow :=
  match m? with
  | some em => rows.filter (fun r => decide (r.time < em + 60))
  | none => rows

/-- `start_minute > end_minute` when both are given. -/
def startAfterEndB (s e : Option ℚ) : Bool :=
  match s, e with
  | some a, some b => decide (b < a)
  | _, _ => false

/-- The plotter summary, built from the requested boundaries alone. -/
def plotterSummaryOf (s e : Option ℚ) : PlotterSummary :=
  match s, e with
  | none, none => PlotterSummary.noTrim
  | _, _ => PlotterSummary.trimmed s e

/-- Model of `_validate_and_trim_by_minute` from pt100_csv_plotter.py.
Boundaries are parsed (failure = absence), floored to the minute on the
wall clock and shifted to the dataset's representation, validated for
membership in the minute index (start first), checked for order, and the
rows are filtered by raw timestamp: at or after the start minute, and
strictly before one minute past the end minute.  Returns the filtered
rows, the two boundary minutes, and the summary. -/
def plotterTrim (rows : List TRow) (tz : Option Int) (startText endText : String) :
    Except PlotterTrimErr (List TRow × Option ℚ × Option ℚ × PlotterSummary) :=
  if (minuteIndexOf rows).isEmpty then .error .emptyIndex
  else
    match boundaryCheck (minuteIndexOf rows) (plotterBoundary tz startText) with
    | some p => .error (.startNotPresent p.1 p.2.1 p.2.2)
    | none =>
      match boundaryCheck (minuteIndexOf rows) (plotterBoundary tz endText) with
      | some p => .error (.endNotPresent p.1 p.2.1 p.2.2)
      | none =>
        if startAfterEndB (plotterBoundary tz startText) (plotterBoundary tz endText)
        then .error .startAfterEnd
        else
          .ok (applyEndFilter (plotterBoundary tz endText)
                 (applyStartFilter (plotterBoundary tz startText) rows),
               plotterBoundary tz startText,
               plotterBoundary tz endText,
               plotterSummaryOf (plotterBoundary tz startText) (plotterBoundary tz endText))

/-- Errors of `_validate_and_trim_by_minute` (pdf variant).  The
boundary-not-present messages interpolate only the nearest valid minute:
no range information is part of them. -/
inductive PdfTrimErr where
  | timeUnparseable
  | invalidTimeFormat
  | endBeforeStart
  | startNotInLog (nearest : ℚ)
  | endNotInLog (nearest : ℚ)
  | emptyResult
deriving DecidableEq

/-- The summary of the pdf variant: `"start → end (n rows)"`, where the
labels are the actual minimum and maximum timestamp of the result
rendered by `strftime("%Y-%m-%d %H:%M")`, i.e. truncated to the minute. -/
structure PdfSummary where
  startLabel : ℚ
  endLabel : ℚ
  rowCount : Nat
deriving DecidableEq

/-- Minimum of a list of rationals (`Series.min()`); 0 on empty input,
which no caller reaches. -/
def listMinQ : List ℚ → ℚ
  | [] => 0
  | x :: xs => xs.foldl min x

/-- Maximum of a list of rationals (`Series.max()`). -/
def listMaxQ : List ℚ → ℚ
  | [] => 0
  | x :: xs => xs.foldl max x

/-- Model of `_validate_and_trim_by_minute` from pt100_csv_plotter_pdf.py.
The empty-input case models `time_series.isna().all()` (vacuously true on
an empty frame; loaded rows all carry times).  Start and end are parsed
strictly (raising on malformed non-empty text), the end-before-start
check compares the raw naive user times, each given boundary must itself
be a member of the minute index after offset adjustment (the grammar
admits no seconds, so the boundary is already a whole minute), and rows
are filtered by floored timestamp between the boundaries inclusive.  The
summary is built from the actual minimum and maximum timestamp of the
result and the row count. -/
def pdfBoundaryErr (present : List ℚ) (m? : Option ℚ) : Option ℚ :=
  match m? with
  | some m => if present.contains m then none else some (padBackfillNearest present m)
  | none => none

/-- `mask &= minutes >= start_minute`: filtering on floored timestamps. -/
def pdfStartFilter (m? : Option ℚ) (rows : List TRow) : List TRow :=
  match m? with
  | some sm => rows.filter (fun r => decide (sm ≤ floorMinute r.time))
  | none => rows

/-- `mask &= minutes <= end_minute`. -/
def pdfEndFilter (m? : Option ℚ) (rows : List TRow) : List TRow :=
  match m? with
  | some em => rows.filter (fun r => decide (floorMinute r.time ≤ em))
  | none => rows

/-- The pdf summary: the minute-rendered actual minimum and maximum
timestamp of the result, and the result's row count. -/
def pdfSummaryOf (rows : List TRow) : PdfSummary :=
  { startLabel := floorMinute (listMinQ (rows.map TRow.time)),
    endLabel := floorMinute (listMaxQ (rows.map TRow.time)),
    rowCount := rows.length }

/-- A given pdf boundary interpreted in the dataset representation
(`tz_localize` of the naive user time when the index is tz-aware). -/
def pdfBoundary (tz : Option Int) (m? : Option ℚ) : Option ℚ :=
  m?.map (fun u => u - offQ tz)

def pdfTrim (rows : List TRow) (tz : Option Int) (startText endText : String) :
    Except PdfTrimErr (List TRow × PdfSummary) :=
  if rows.isEmpty then .error .timeUnparseable
  else
    match pdfParseUserTime startText with
    | .error _ => .error .invalidTimeFormat
    | .ok s? =>
      match pdfParseUserTime endText with
      | .error _ => .error .invalidTimeFormat
      | .ok e? =>
        if startAfterEndB s? e? then .error .endBeforeStart
        else
          match pdfBoundaryErr (minuteIndexOf rows) (pdfBoundary tz s?) with
          | some nr => .error (.startNotInLog nr)
          | none =>
            match pdfBoundaryErr (minuteIndexOf rows) (pdfBoundary tz e?) with
            | some nr => .error (.endNotInLog nr)
            | none =>
              if (pdfEndFilter (pdfBoundary tz e?)
                    (pdfStartFilter (pdfBoundary tz s?) rows)).isEmpty
              then .error .emptyResult
              else
                .ok (pdfEndFilter (pdfBoundary tz e?)
                       (pdfStartFilter (pdfBoundary tz s?) rows),
                     pdfSummaryOf (pdfEndFilter (pdfBoundary tz e?)
                       (pdfStartFilter (pdfBoundary tz s?) rows)))

/-! ### Summary statistics (§4.6) -/

/-- The numeric values surviving `pd.to_numeric(series, errors="coerce").dropna()`. -/
def numericsOf (values : List Value) : List ℚ := values.filterMap toNumeric

/-- The statistics of `_compute_basic_stats`, over exact rationals.  The
standard deviation `numeric.std(ddof=0)` is the square root of `varV`,
the population variance (divisor = count); the variance is carried since
the root is in general irrational. -/
structure StatsQ where
  minV : ℚ
  meanV : ℚ
  maxV : ℚ
  varV : ℚ
deriving DecidableEq

/-- Model of `_compute_basic_stats` from pt100_csv_plotter_pdf.py: coerce
to numeric and drop misses; `none` models the all-"n/a" sentinel result
returned when nothing numeric remains. -/
def computeBasicStats (values : List Value) : Option StatsQ :=
  match numericsOf values with
  | [] => none
  | x :: xs =>
    let n := x :: xs
    let cnt : ℚ := (n.length : ℚ)
    let mean := n.sum / cnt
    some { minV := xs.foldl min x,
           meanV := mean,
           maxV := xs.foldl max x,
           varV := (n.map (fun v => (v - mean) ^ 2)).sum / cnt }

/-- Display rounding to 3 fractional digits (`f"{x:.3f}"`), modelled as
exact half-up rounding on rationals. -/
def format3 (q : ℚ) : ℚ := ((qfloor (q * 1000 + 1 / 2) : ℤ) : ℚ) / 1000

/-! ### Serial ingest (mesh_ingest.py) -/

/-- A decoded JSON value as `json.loads` produces for the sample fields. -/
inductive JVal where
  | num (q : ℚ)
  | str (s : String)
  | jbool (b : Bool)
  | null
deriving DecidableEq

/-- `sample.get(k)`: the value at a key, if present. -/
def jsonGet (sample : List (String × JVal)) (k : String) : Option JVal :=
  sample.lookup k

/-- Python `int()` truncates toward zero. -/
def ratTrunc (q : ℚ) : Int := if 0 ≤ q then qfloor q else -(qfloor (-q))

/-- Parse a signed integer numeral, the grammar `int(str)` accepts
(whitespace already stripped; no decimal point). -/
def parseIntChars (cs : List Char) : Option Int :=
  let p := match cs with
    | '-' :: rest => ((-1 : Int), rest)
    | '+' :: rest => ((1 : Int), rest)
    | _ => ((1 : Int), cs)
  let r := readDigits p.2
  if r.2.1 = 0 ∨ r.2.2 ≠ [] then none else some (p.1 * (r.1 : Int))

/-- Python `int(value)` on a decoded JSON value: numbers truncate, numeric
strings parse, booleans map to 0/1, anything else raises. -/
def pyInt : JVal → Except Unit Int
  | JVal.num q => .ok (ratTrunc q)
  | JVal.str s =>
    match parseIntChars (stripSpaces s) with
    | some v => .ok v
    | none => .error ()
  | JVal.jbool b => .ok (if b then 1 else 0)
  | JVal.null => .error ()

/-- Python `float(value)` on a decoded JSON value, with `none` modelling
NaN (the default `float("nan")`); other NaN spellings are outside the
modelled inputs. -/
def pyFloat : JVal → Except Unit (Option ℚ)
  | JVal.num q => .ok (some q)
  | JVal.str s =>
    let cs := stripSpaces s
    if cs = [ 'n', 'a', 'n' ] then .ok none
    else
      match parseDecimalChars cs with
      | some q => .ok (some q)
      | none => .error ()
  | JVal.jbool b => .ok (some (if b then 1 else 0))
  | JVal.null => .error ()

/-- One row of the `temp_samples` table. -/
structure StoredSample where
  node_id : JVal
  ts_epoch : Int
  temp_c : Option ℚ
  raw_c : Option ℚ
  r_ohm : Option ℚ
  seq : Int
  received_epoch : Int
deriving DecidableEq

/-- Model of `insert_sample` from mesh_ingest.py: every field falls back
to a default when its key is absent (`node` → `""`, `ts` → `0`,
`temp_c`/`raw_c`/`r_ohm` → the string `"nan"` hence NaN, `seq` → `0`),
and the receipt time `int(time.time())` is passed in as `now`. -/
def insert_sample (sample : List (String × JVal)) (now : Int) :
    Except Unit StoredSample := do
  let ts ← pyInt ((jsonGet sample "ts").getD (JVal.num 0))
  let tc ← pyFloat ((jsonGet sample "temp_c").getD (JVal.str "nan"))
  let rc ← pyFloat ((jsonGet sample "raw_c").getD (JVal.str "nan"))
  let ro ← pyFloat ((jsonGet sample "r_ohm").getD (JVal.str "nan"))
  let sq ← pyInt ((jsonGet sample "seq").getD (JVal.num 0))
  return { node_id := (jsonGet sample "node").getD (JVal.str ""),
           ts_epoch := ts,
           temp_c := tc,
           raw_c := rc,
           r_ohm := ro,
           seq := sq,
           received_epoch := now }

/-! ### Concrete example data used by the theorems below -/

/-- A source file with only an `epoch_utc` column: one not-yet-valid row
(epoch 0) and one valid row. -/
def exFrameEpoch : Frame :=
  { cols := ["epoch_utc"],
    rows := [[("epoch_utc", Value.num 0)], [("epoch_utc", Value.num 1700000000)]] }

/-- Loaded rows at 1970-01-01 10:00:00 and 10:05:00 (naive). -/
def exRowsTwo : List TRow :=
  [{ pos := 0, cells := [], time := 36000 }, { pos := 1, cells := [], time := 36300 }]

/-- A single row at 10:05:10. -/
def exRowTen : List TRow := [{ pos := 0, cells := [], time := 36310 }]

/-- A single row at 10:05:20. -/
def exRowTwenty : List TRow := [{ pos := 0, cells := [], time := 36320 }]

/-- The worked statistics example of the spec:
`["1.0", "bad", "3.0", missing]`. -/
def exStatsValues : List Value :=
  [Value.text "1.0", Value.text "bad", Value.text "3.0", Value.missing]

/-! ### Theorems -/

/-- C4 (code bug in the pdf variant): on a two-row epoch file, the pdf
loader does not return a dataset with the unusable row excluded and
counted — it fails with a missing-column error, because
`_pick_time_source` filtered and annotated a discarded local copy and the
caller then evaluates `combined["__time"]`.  The plotter loader on the
very same input behaves as the claim describes: the epoch-0 row is
excluded, `dropped = 1`, and the surviving row keeps its resolved
timestamp. -/
theorem c4_pdf_loader_keyerror :
    pdfLoadCsvFiles [("a.csv", exFrameEpoch)] = .error (LoadErr.keyError "__time") ∧
    loadPlotter [exFrameEpoch] =
      .ok { cols := ["epoch_utc", "schema_ver", "seq", "iso8601_local", "raw_rtd_ohms",
                     "raw_temp_c", "cal_temp_c", "flags", "node_id"],
            rows := [{ pos := 1, cells := [("epoch_utc", Value.num 1700000000)],
                       time := 1700000000 }],
            basis := TimeBasis.epoch,
            timeIsLocal := false,
            tz := some 0,
            dropped := 1 } := by
  constructor
  · decide
  · decide

/-- C3 counterexample: the non-empty boundary text `"garbage"` does not
parse as a calendar date-and-time, yet the plotter's range validator does
not fail with an invalid-format error — `_safe_parse_user_time` returns
absence and trimming proceeds as if no boundary had been given. -/
theorem c3_counterexample :
    "garbage" ≠ "" ∧
    plotterParseUserTime "garbage" = none ∧
    plotterTrim exRowsTwo none "garbage" "" =
      .ok (exRowsTwo, none, none, PlotterSummary.noTrim) := by
  refine ⟨by decide, by decide, by decide⟩

/-- C6 counterexample: two single-row datasets with different actual
timestamps (10:05:10 vs 10:05:20) yield the identical plotter summary for
the same request, and that summary carries the requested boundary minute
(10:05:00) and no row count — it is not derived from the actual minimum,
maximum and count of the filtered rows. -/
theorem c6_counterexample :
    plotterTrim exRowTen none "1970-01-01 10:05" "" =
      .ok (exRowTen, some 36300, none, PlotterSummary.trimmed (some 36300) none) ∧
    plotterTrim exRowTwenty none "1970-01-01 10:05" "" =
      .ok (exRowTwenty, some 36300, none, PlotterSummary.trimmed (some 36300) none) ∧
    listMinQ (exRowTen.map TRow.time) = 36310 ∧
    listMinQ (exRowTwenty.map TRow.time) = 36320 ∧
    (36310 : ℚ) ≠ 36300 := by
  refine ⟨by decide, by decide, by decide, by decide, by decide⟩

/-- C8 counterexample: for a source file without a `cal_temp_c` column,
the pdf variant's merged frame still lacks that expected column (it has
no normalization step), while the plotter's normalization adds it. -/
theorem c8_counterexample :
    (pdfConcat [("a.csv", exFrameEpoch)]).cols.contains "cal_temp_c" = false ∧
    (ensureExpected (concatFrames [exFrameEpoch])).cols.contains "cal_temp_c" = true := by
  refine ⟨by decide, by decide⟩

/-! ### Lemmas about the sort -/

theorem mem_insertLe {α : Type} (le : α → α → Bool) (x : α) (l : List α) (a : α) :
    a ∈ insertLe le x l ↔ a = x ∨ a ∈ l := by
  induction l with
  | nil => simp [insertLe]
  | cons y ys ih =>
    rw [insertLe]
    split
    · simp [List.mem_cons]
    · rw [List.mem_cons, ih, List.mem_cons, or_left_comm]

theorem perm_insertLe {α : Type} (le : α → α → Bool) (x : α) (l : List α) :
    (insertLe le x l).Perm (x :: l) := by
  induction l with
  | nil => exact List.Perm.refl _
  | cons y ys ih =>
    rw [insertLe]
    split
    · exact List.Perm.refl _
    · exact (ih.cons y).trans (List.Perm.swap x y ys)

theorem perm_sortByLe {α : Type} (le : α → α → Bool) (l : List α) :
    (sortByLe le l).Perm l := by
  induction l with
  | nil => exact List.Perm.refl _
  | cons x xs ih =>
    rw [sortByLe]
    exact (perm_insertLe le x (sortByLe le xs)).trans (ih.cons x)

theorem pairwise_insertLe {α : Type} (le : α → α → Bool)
    (htr : ∀ a b c, le a b = true → le b c = true → le a c = true)
    (hto : ∀ a b, le a b = true ∨ le b a = true) (x : α) (l : List α)
    (hl : l.Pairwise (fun a b => le a b = true)) :
    (insertLe le x l).Pairwise (fun a b => le a b = true) := by
  induction l with
  | nil => simp [insertLe]
  | cons y ys ih =>
    obtain ⟨hy, hys⟩ := List.pairwise_cons.mp hl
    rw [insertLe]
    split
    · rename_i h
      refine List.pairwise_cons.mpr ⟨?_, hl⟩
      intro b hb
      rcases List.mem_cons.mp hb with rfl | hb
      · exact h
      · exact htr x y b h (hy b hb)
    · rename_i h
      refine List.pairwise_cons.mpr ⟨?_, ih hys⟩
      intro b hb
      rcases (mem_insertLe le x ys b).mp hb with rfl | hb
      · exact (hto y b).resolve_right (fun hh => h hh)
      · exact hy b hb

theorem pairwise_sortByLe {α : Type} (le : α → α → Bool)
    (htr : ∀ a b c, le a b = true → le b c = true → le a c = true)
    (hto : ∀ a b, le a b = true ∨ le b a = true) (l : List α) :
    (sortByLe le l).Pairwise (fun a b => le a b = true) := by
  induction l with
  | nil => simp [sortByLe]
  | cons x xs ih => exact pairwise_insertLe le htr hto x _ ih

theorem mem_dedupSort (l : List ℚ) (a : ℚ) : a ∈ dedupSort l ↔ a ∈ l := by
  rw [dedupSort, (perm_sortByLe qLeB l.dedup).mem_iff, List.mem_dedup]

theorem dedupSort_nodup (l : List ℚ) : (dedupSort l).Nodup := by
  rw [dedupSort]
  exact ((perm_sortByLe qLeB l.dedup).nodup_iff).mpr (List.nodup_dedup l)

theorem dedupSort_eq_nil_iff (l : List ℚ) : dedupSort l = [] ↔ l = [] := by
  constructor
  · intro h
    cases l with
    | nil => rfl
    | cons x xs =>
      exfalso
      have hx : x ∈ dedupSort (x :: xs) := (mem_dedupSort _ x).mpr (List.mem_cons_self x xs)
      rw [h] at hx
      exact List.not_mem_nil x hx
  · intro h
    subst h
    rfl

theorem foldl_min_mem (x : ℚ) (xs : List ℚ) : xs.foldl min x ∈ x :: xs := by
  induction xs generalizing x with
  | nil => exact List.mem_cons_self _ _
  | cons v vs ih =>
    rw [List.foldl_cons]
    rcases List.mem_cons.mp (ih (min x v)) with he | hm
    · rcases min_choice x v with hc | hc
      · rw [he, hc]
        exact List.mem_cons_self _ _
      · rw [he, hc]
        exact List.mem_cons_of_mem x (List.mem_cons_self _ _)
    · exact List.mem_cons_of_mem x (List.mem_cons_of_mem v hm)

theorem foldl_min_le (x : ℚ) (xs : List ℚ) : ∀ y ∈ x :: xs, xs.foldl min x ≤ y := by
  induction xs generalizing x with
  | nil =>
    intro y hy
    rcases List.mem_cons.mp hy with rfl | hy
    · exact le_refl _
    · exact absurd hy (List.not_mem_nil y)
  | cons v vs ih =>
    intro y hy
    rw [List.foldl_cons]
    rcases List.mem_cons.mp hy with rfl | hy2
    · exact le_trans (ih (min y v) (min y v) (List.mem_cons_self _ _)) (min_le_left y v)
    · rcases List.mem_cons.mp hy2 with rfl | hy3
      · exact le_trans (ih (min x y) (min x y) (List.mem_cons_self _ _)) (min_le_right x y)
      · exact ih (min x v) y (List.mem_cons_of_mem _ hy3)

theorem foldl_max_mem (x : ℚ) (xs : List ℚ) : xs.foldl max x ∈ x :: xs := by
  induction xs generalizing x with
  | nil => exact List.mem_cons_self _ _
  | cons v vs ih =>
    rw [List.foldl_cons]
    rcases List.mem_cons.mp (ih (max x v)) with he | hm
    · rcases max_choice x v with hc | hc
      · rw [he, hc]
        exact List.mem_cons_self _ _
      · rw [he, hc]
        exact List.mem_cons_of_mem x (List.mem_cons_self _ _)
    · exact List.mem_cons_of_mem x (List.mem_cons_of_mem v hm)

theorem foldl_le_max (x : ℚ) (xs : List ℚ) : ∀ y ∈ x :: xs, y ≤ xs.foldl max x := by
  induction xs generalizing x with
  | nil =>
    intro y hy
    rcases List.mem_cons.mp hy with rfl | hy
    · exact le_refl _
    · exact absurd hy (List.not_mem_nil y)
  | cons v vs ih =>
    intro y hy
    rw [List.foldl_cons]
    rcases List.mem_cons.mp hy with rfl | hy2
    · exact le_trans (le_max_left y v) (ih (max y v) (max y v) (List.mem_cons_self _ _))
    · rcases List.mem_cons.mp hy2 with rfl | hy3
      · exact le_trans (le_max_right x y) (ih (max x y) (max x y) (List.mem_cons_self _ _))
      · exact ih (max x v) y (List.mem_cons_of_mem _ hy3)

theorem listMinQ_mem (l : List ℚ) (h : l ≠ []) : listMinQ l ∈ l := by
  cases l with
  | nil => exact absurd rfl h
  | cons x xs => exact foldl_min_mem x xs

theorem listMinQ_le (l : List ℚ) : ∀ y ∈ l, listMinQ l ≤ y := by
  cases l with
  | nil => exact fun y hy => absurd hy (List.not_mem_nil y)
  | cons x xs => exact fun y hy => foldl_min_le x xs y hy

theorem listMaxQ_mem (l : List ℚ) (h : l ≠ []) : listMaxQ l ∈ l := by
  cases l with
  | nil => exact absurd rfl h
  | cons x xs => exact foldl_max_mem x xs

theorem le_listMaxQ (l : List ℚ) : ∀ y ∈ l, y ≤ listMaxQ l := by
  cases l with
  | nil => exact fun y hy => absurd hy (List.not_mem_nil y)
  | cons x xs => exact fun y hy => foldl_le_max x xs y hy

/-- C9: trimming with both boundaries left empty returns the dataset
unchanged, row for row and in order, in both variants (the pdf variant
additionally returns its data-derived summary). -/
theorem c9_trim_identity (rows : List TRow) (tz : Option Int) (h : rows ≠ []) :
    plotterTrim rows tz "" "" = .ok (rows, none, none, PlotterSummary.noTrim) ∧
    ∃ summ : PdfSummary, pdfTrim rows tz "" "" = .ok (rows, summ) := by
  have hparse : plotterParseUserTime "" = none := by decide
  have hpdf : pdfParseUserTime "" = .ok none := by decide
  have hidx : minuteIndexOf rows ≠ [] := by
    intro he
    rw [minuteIndexOf, dedupSort_eq_nil_iff] at he
    exact h (List.map_eq_nil_iff.mp he)
  constructor
  · cases hc : minuteIndexOf rows with
    | nil => exact absurd hc hidx
    | cons m ms =>
      simp [plotterTrim, plotterBoundary, hparse, hc, boundaryCheck, startAfterEndB,
        applyStartFilter, applyEndFilter, plotterSummaryOf]
  · cases rows with
    | nil => exact absurd rfl h
    | cons r rs =>
      refine ⟨{ startLabel := floorMinute (listMinQ ((r :: rs).map TRow.time)),
                endLabel := floorMinute (listMaxQ ((r :: rs).map TRow.time)),
                rowCount := (r :: rs).length }, ?_⟩
      simp [pdfTrim, hpdf, startAfterEndB, pdfBoundary, pdfBoundaryErr,
        pdfStartFilter, pdfEndFilter, pdfSummaryOf]

/-- C9 witness at a concrete two-row dataset. -/
theorem c9_trim_identity_witness :
    plotterTrim exRowsTwo none "" "" = .ok (exRowsTwo, none, none, PlotterSummary.noTrim) ∧
    ∃ summ : PdfSummary, pdfTrim exRowsTwo none "" "" = .ok (exRowsTwo, summ) :=
  c9_trim_identity exRowsTwo none (by decide)

/-- C7: summary statistics coerces to numeric and discards failures; the
sentinel is returned exactly when nothing numeric remains; otherwise the
result holds the true minimum and maximum, the arithmetic mean
(mean * count = sum), and the population variance (variance * count =
sum of squared deviations; the displayed standard deviation is its square
root, and the claimed divisor is the count, not count - 1).  On
`["1.0", "bad", "3.0", missing]` the result is min 1, mean 2, max 3 and
variance 1 (so std = 1), with 2 entries discarded; the 3-digit display
rounding leaves these values unchanged. -/
theorem c7_stats (values : List Value) :
    (computeBasicStats values = none ↔ numericsOf values = []) ∧
    (∀ s : StatsQ, computeBasicStats values = some s →
      s.minV ∈ numericsOf values ∧
      s.maxV ∈ numericsOf values ∧
      (∀ y ∈ numericsOf values, s.minV ≤ y ∧ y ≤ s.maxV) ∧
      s.meanV * ((numericsOf values).length : ℚ) = (numericsOf values).sum ∧
      s.varV * ((numericsOf values).length : ℚ) =
        ((numericsOf values).map (fun v => (v - s.meanV) ^ 2)).sum) ∧
    computeBasicStats exStatsValues =
      some { minV := 1, meanV := 2, maxV := 3, varV := 1 } ∧
    exStatsValues.length - (numericsOf exStatsValues).length = 2 ∧
    format3 1 = 1 ∧ format3 2 = 2 ∧ format3 3 = 3 := by
  refine ⟨?_, ?_, by decide, by decide, by decide, by decide, by decide⟩
  · cases hn : numericsOf values with
    | nil => simp [computeBasicStats, hn]
    | cons x xs => simp [computeBasicStats, hn]
  · intro s hs
    cases hn : numericsOf values with
    | nil =>
      rw [computeBasicStats, hn] at hs
      cases hs
    | cons x xs =>
      rw [computeBasicStats, hn] at hs
      have hcnt : ((x :: xs).length : ℚ) ≠ 0 := by
        simp [List.length_cons]
        exact Nat.cast_add_one_ne_zero xs.length
      obtain rfl := Option.some.inj hs
      refine ⟨foldl_min_mem x xs, foldl_max_mem x xs, ?_, ?_, ?_⟩
      · exact fun y hy => ⟨foldl_min_le x xs y hy, foldl_le_max x xs y hy⟩
      · exact div_mul_cancel₀ _ hcnt
      · exact div_mul_cancel₀ _ hcnt

/-- C7 witness: the characterization applied at the spec's worked example,
with the some-result hypothesis discharged by evaluation. -/
theorem c7_stats_witness :
    ({ minV := 1, meanV := 2, maxV := 3, varV := 1 } : StatsQ).minV ∈
      numericsOf exStatsValues :=
  ((c7_stats exStatsValues).2.1
    { minV := 1, meanV := 2, maxV := 3, varV := 1 } (by decide)).1

/-- C10: the ingest store never rejects a record for missing fields: with
every optional key absent, `insert_sample` succeeds and stores the empty
string for the node, epoch 0 for the timestamp (which the plotters'
epoch resolution treats as not yet valid: the second conjunct), sequence
0, NaN for the three measurements, and the server-assigned receipt time
`now`. -/
theorem c10_ingest_defaults (sample : List (String × JVal)) (now : Int)
    (hnode : jsonGet sample "node" = none)
    (hts : jsonGet sample "ts" = none)
    (htemp : jsonGet sample "temp_c" = none)
    (hraw : jsonGet sample "raw_c" = none)
    (hrohm : jsonGet sample "r_ohm" = none)
    (hseq : jsonGet sample "seq" = none) :
    insert_sample sample now =
      .ok { node_id := JVal.str "", ts_epoch := 0, temp_c := none, raw_c := none,
            r_ohm := none, seq := 0, received_epoch := now } ∧
    resolveEpochCell (Value.num 0) = none := by
  constructor
  · rw [insert_sample, hnode, hts, htemp, hraw, hrohm, hseq]
    rfl
  · rfl

/-- C10 witness at the empty record. -/
theorem c10_ingest_defaults_witness :
    insert_sample [] 1234 =
      .ok { node_id := JVal.str "", ts_epoch := 0, temp_c := none, raw_c := none,
            r_ohm := none, seq := 0, received_epoch := 1234 } ∧
    resolveEpochCell (Value.num 0) = none :=
  c10_ingest_defaults [] 1234 rfl rfl rfl rfl rfl rfl

/-- A row's epoch cell resolves exactly when it is numeric and strictly
positive (values at or below zero, and non-numeric cells, are unusable). -/
theorem resolveEpoch_isSome_iff (v : Value) :
    (resolveEpochCell v).isSome = true ↔ ∃ q, toNumeric v = some q ∧ 0 < q := by
  rw [resolveEpochCell]
  cases h : toNumeric v with
  | none => simp
  | some q =>
    by_cases hq : 0 < q
    · simp [hq]
    · simp [hq]

/-- C1: time-source resolution picks exactly one basis for the whole
dataset, in both variants.  The usability tests are the semantic ones of
the claim (some row parses as a calendar timestamp; some epoch cell is a
strictly positive number, everything at or below zero or non-numeric
being unusable).  The three policy tiers are: local-time column when
present and usable, else the epoch column when present and usable, else
the NoUsableTimestamp failure.  Finally, in any successfully loaded
dataset every row's resolved timestamp comes from the one recorded
basis — no row is resolved under a different basis. -/
theorem c1_time_source_resolution :
    (∀ f : Frame,
      (isoUsable f = true ↔ ∃ r ∈ f.rows, (resolveRow TimeBasis.iso r).isSome = true) ∧
      (epochUsable f = true ↔
        ∃ r ∈ f.rows, ∃ q, toNumeric (getCell r "epoch_utc") = some q ∧ 0 < q) ∧
      ((f.hasCol "iso8601_local" && isoUsable f) = true →
        pickTimeSource f = .ok (TimeBasis.iso, true, firstIsoOffset f) ∧
        pdfPickTimeSource f = .ok ("__time", firstIsoOffset f,
          (f.rows.filter (fun r => (resolveRow TimeBasis.iso r).isNone)).length)) ∧
      ((f.hasCol "iso8601_local" && isoUsable f) = false →
        (f.hasCol "epoch_utc" && epochUsable f) = true →
        pickTimeSource f = .ok (TimeBasis.epoch, false, some 0) ∧
        pdfPickTimeSource f = .ok ("__time", some 0,
          (f.rows.filter (fun r => (resolveRow TimeBasis.epoch r).isNone)).length)) ∧
      ((f.hasCol "iso8601_local" && isoUsable f) = false →
        (f.hasCol "epoch_utc" && epochUsable f) = false →
        pickTimeSource f = .error () ∧ pdfPickTimeSource f = .error ())) ∧
    (∀ (files : List Frame) (log : PlotterLog), loadPlotter files = .ok log →
      ∀ tr ∈ log.rows, resolveRow log.basis tr.cells = some tr.time) := by
  constructor
  · intro f
    refine ⟨?_, ?_, ?_, ?_, ?_⟩
    · rw [isoUsable, List.any_eq_true]
    · rw [epochUsable, List.any_eq_true]
      constructor
      · intro ⟨r, hr, hs⟩
        exact ⟨r, hr, (resolveEpoch_isSome_iff _).mp hs⟩
      · intro ⟨r, hr, hs⟩
        exact ⟨r, hr, (resolveEpoch_isSome_iff _).mpr hs⟩
    · intro h1
      constructor
      · rw [pickTimeSource, if_pos h1]
      · rw [pdfPickTimeSource, if_pos h1]
    · intro h1 h2
      constructor
      · rw [pickTimeSource, if_neg (by simp [h1]), if_pos h2]
      · rw [pdfPickTimeSource, if_neg (by simp [h1]), if_pos h2]
    · intro h1 h2
      constructor
      · rw [pickTimeSource, if_neg (by simp [h1]), if_neg (by simp [h2])]
      · rw [pdfPickTimeSource, if_neg (by simp [h1]), if_neg (by simp [h2])]
  · intro files log hload tr htr
    unfold loadPlotter at hload
    split at hload
    · cases hload
    · split at hload
      · cases hload
      · rename_i b isLocal tz hpick
        obtain rfl := Except.ok.inj hload
        have hmem : tr ∈ keptRows b (ensureExpected (concatFrames files)) :=
          (perm_sortByLe rowLe _).mem_iff.mp htr
        rw [keptRows, List.mem_filterMap] at hmem
        obtain ⟨p, hp, hmap⟩ := hmem
        cases hq : p.2.2 with
        | none =>
          rw [hq] at hmap
          cases hmap
        | some t0 =>
          rw [hq] at hmap
          obtain rfl := Option.some.inj hmap
          rw [resolvedRows, List.mem_map] at hp
          obtain ⟨pe, _, rfl⟩ := hp
          exact hq

/-- C1 witness: the second policy tier applied at the concrete epoch-only
file, with both Boolean tier conditions discharged by evaluation. -/
theorem c1_time_source_resolution_witness :
    pickTimeSource (ensureExpected (concatFrames [exFrameEpoch])) =
      .ok (TimeBasis.epoch, false, some 0) :=
  ((c1_time_source_resolution.1 (ensureExpected (concatFrames [exFrameEpoch]))).2.2.2.1
    (by decide) (by decide)).1

/-- C3 (amended): the two variants differ from the claim in opposite
directions.  In the plotter, a non-empty boundary that fails to parse is
silently treated as an absent boundary (trimming behaves exactly as with
empty text) — there is no invalid-format failure.  In the pdf variant,
unparseable non-empty text does fail with the invalid-format error, but
the accepted grammar is exactly `YYYY-MM-DD HH:MM` with a space or `T`
separator: appending seconds or substituting slashes for dashes is
rejected there, while the plotter's parser accepts both. -/
theorem c3_user_time_grammar :
    (∀ (rows : List TRow) (tz : Option Int) (s e : String),
      plotterParseUserTime s = none →
      plotterTrim rows tz s e = plotterTrim rows tz "" e) ∧
    (∀ (rows : List TRow) (tz : Option Int) (s e : String),
      rows ≠ [] → pdfParseUserTime s = .error () →
      pdfTrim rows tz s e = .error PdfTrimErr.invalidTimeFormat) ∧
    (∀ (rows : List TRow) (tz : Option Int) (s e : String),
      plotterParseUserTime e = none →
      plotterTrim rows tz s e = plotterTrim rows tz s "") ∧
    (∀ (rows : List TRow) (tz : Option Int) (s e : String) (s? : Option ℚ),
      rows ≠ [] → pdfParseUserTime s = .ok s? → pdfParseUserTime e = .error () →
      pdfTrim rows tz s e = .error PdfTrimErr.invalidTimeFormat) ∧
    pdfParseUserTime "2024-01-02 03:04" = .ok (some 1704164640) ∧
    pdfParseUserTime "2024-01-02T03:04" = .ok (some 1704164640) ∧
    pdfParseUserTime "2024-01-02 03:04:05" = .error () ∧
    pdfParseUserTime "2024/01/02 03:04" = .error () ∧
    plotterParseUserTime "2024-01-02 03:04:05" = some 1704164645 ∧
    plotterParseUserTime "2024/01/02T03:04" = some 1704164640 := by
  refine ⟨?_, ?_, ?_, ?_, by decide, by decide, by decide, by decide, by decide, by decide⟩
  · intro rows tz s e h
    have h2 : plotterParseUserTime "" = none := by decide
    unfold plotterTrim plotterBoundary
    rw [h, h2]
  · intro rows tz s e hne herr
    cases rows with
    | nil => exact absurd rfl hne
    | cons r rs => simp [pdfTrim, herr]
  · intro rows tz s e h
    have h2 : plotterParseUserTime "" = none := by decide
    unfold plotterTrim plotterBoundary
    rw [h, h2]
  · intro rows tz s e s? hne hok herr
    cases rows with
    | nil => exact absurd rfl hne
    | cons r rs => simp [pdfTrim, hok, herr]

/-- C3 witness: malformed text behaves as absence in the plotter and
fails in the pdf variant, for the start and for the end boundary, at a
concrete dataset. -/
theorem c3_user_time_grammar_witness :
    plotterTrim exRowsTwo none "not-a-time" "" = plotterTrim exRowsTwo none "" "" ∧
    pdfTrim exRowsTwo none "not-a-time" "" = .error PdfTrimErr.invalidTimeFormat ∧
    plotterTrim exRowsTwo none "" "not-a-time" = plotterTrim exRowsTwo none "" "" ∧
    pdfTrim exRowsTwo none "" "not-a-time" = .error PdfTrimErr.invalidTimeFormat :=
  ⟨c3_user_time_grammar.1 exRowsTwo none "not-a-time" "" (by decide),
   c3_user_time_grammar.2.1 exRowsTwo none "not-a-time" "" (by decide) (by decide),
   c3_user_time_grammar.2.2.1 exRowsTwo none "" "not-a-time" (by decide),
   c3_user_time_grammar.2.2.2.1 exRowsTwo none "" "not-a-time" none (by decide)
     (by decide) (by decide)⟩


/-- C6 (amended): the pdf variant's summary is derived from the actual
result — its labels are the minute-rendered true minimum and maximum
timestamp of the filtered rows (proved minimal/maximal below) and its
count is the result's length.  The plotter variant's summary is instead
a function of the requested boundaries alone: two successful trims with
the same boundary text and offset produce identical summaries whatever
their row sets (see also the counterexample). -/
theorem c6_summary :
    (∀ (rows : List TRow) (tz : Option Int) (s e : String) (out : List TRow)
        (summ : PdfSummary), pdfTrim rows tz s e = .ok (out, summ) →
      out ≠ [] ∧
      summ.startLabel = floorMinute (listMinQ (out.map TRow.time)) ∧
      summ.endLabel = floorMinute (listMaxQ (out.map TRow.time)) ∧
      summ.rowCount = out.length ∧
      listMinQ (out.map TRow.time) ∈ out.map TRow.time ∧
      listMaxQ (out.map TRow.time) ∈ out.map TRow.time ∧
      (∀ y ∈ out.map TRow.time,
        listMinQ (out.map TRow.time) ≤ y ∧ y ≤ listMaxQ (out.map TRow.time))) ∧
    (∀ (rows rows2 : List TRow) (tz : Option Int) (s e : String)
        (o1 o2 : List TRow) (s1 e1 s2 e2 : Option ℚ) (m1 m2 : PlotterSummary),
      plotterTrim rows tz s e = .ok (o1, s1, e1, m1) →
      plotterTrim rows2 tz s e = .ok (o2, s2, e2, m2) →
      m1 = m2) := by
  constructor
  · intro rows tz s e out summ h
    unfold pdfTrim at h
    split at h
    · cases h
    · split at h
      · cases h
      · split at h
        · cases h
        · split at h
          · cases h
          · split at h
            · cases h
            · split at h
              · cases h
              · split at h
                · cases h
                · rename_i hne2
                  have hh := Except.ok.inj h
                  simp only [Prod.mk.injEq] at hh
                  obtain ⟨hF, hS⟩ := hh
                  rw [hF] at hne2 hS
                  have hout : out ≠ [] := by
                    intro he
                    rw [he] at hne2
                    exact hne2 rfl
                  have hmap : out.map TRow.time ≠ [] := by
                    intro he
                    exact hout (List.map_eq_nil_iff.mp he)
                  rw [← hS]
                  exact ⟨hout, rfl, rfl, rfl, listMinQ_mem _ hmap, listMaxQ_mem _ hmap,
                    fun y hy => ⟨listMinQ_le _ y hy, le_listMaxQ _ y hy⟩⟩
  · intro rows rows2 tz s e o1 o2 s1 e1 s2 e2 m1 m2 h1 h2
    unfold plotterTrim at h1 h2
    split at h1
    · cases h1
    · split at h1
      · cases h1
      · split at h1
        · cases h1
        · split at h1
          · cases h1
          · have hh1 := Except.ok.inj h1
            simp only [Prod.mk.injEq] at hh1
            obtain ⟨-, -, -, rfl⟩ := hh1
            split at h2
            · cases h2
            · split at h2
              · cases h2
              · split at h2
                · cases h2
                · have hh2 := Except.ok.inj h2
                  simp only [Prod.mk.injEq] at hh2
                  obtain ⟨-, -, -, rfl⟩ := hh2
                  rfl

set_option maxHeartbeats 2000000 in
/-- C6 witness: both halves applied at concrete data, the trim-result
hypotheses discharged by evaluation. -/
theorem c6_summary_witness :
    ({ startLabel := 36000, endLabel := 36300, rowCount := 2 } : PdfSummary).rowCount =
      exRowsTwo.length ∧
    (PlotterSummary.trimmed (some 36300) none : PlotterSummary) =
      PlotterSummary.trimmed (some 36300) none :=
  ⟨(c6_summary.1 exRowsTwo none "" "" exRowsTwo
      { startLabel := 36000, endLabel := 36300, rowCount := 2 } (by decide)).2.2.2.1,
   c6_summary.2 exRowTen exRowTwenty none "1970-01-01 10:05" "" exRowTen exRowTwenty
      (some 36300) none (some 36300) none (PlotterSummary.trimmed (some 36300) none)
      (PlotterSummary.trimmed (some 36300) none) (by decide) (by decide)⟩

/-- Membership in a column union. -/
theorem unionCols_mem (a b : List String) (c : String) (h : c ∈ a ∨ c ∈ b) :
    c ∈ unionCols a b := by
  rcases h with h | h
  · exact List.mem_append_left _ h
  · by_cases ha : a.contains c
    · exact List.mem_append_left _ (List.mem_of_elem_eq_true ha)
    · refine List.mem_append_right _ ?_
      rw [List.mem_filter]
      refine ⟨h, ?_⟩
      simp only [Bool.not_eq_true']
      rw [← Bool.not_eq_true]
      exact fun hm => ha hm

/-- C8 (amended): the plotter's normalization step makes every expected
column present, leaves the rows untouched (so a row lacking the column
reads the explicit missing marker), and is total — absence of a column is
never an error there.  The pdf variant performs no such normalization
(see the counterexample). -/
theorem c8_normalization (f : Frame) (c : String) (hc : c ∈ expectedCols) :
    c ∈ (ensureExpected f).cols ∧
    (ensureExpected f).rows = f.rows ∧
    ∀ r ∈ f.rows, r.lookup c = none → getCell r c = Value.missing := by
  refine ⟨?_, rfl, ?_⟩
  · exact unionCols_mem f.cols expectedCols c (Or.inr hc)
  · intro r _ hr
    rw [getCell, hr]
    rfl

/-- C8 witness at the epoch-only file and the calibrated-reading column. -/
theorem c8_normalization_witness :
    "cal_temp_c" ∈ (ensureExpected exFrameEpoch).cols :=
  (c8_normalization exFrameEpoch "cal_temp_c" (by decide)).1

theorem optEqB_iff (x y : Option ℚ) : optEqB x y = true ↔ x = y := by
  cases x <;> cases y <;> simp [optEqB]

theorem optLtB_irrefl (x : Option ℚ) : optLtB x x = false := by
  cases x <;> simp [optLtB]

theorem optLtB_trans {x y z : Option ℚ} (h1 : optLtB x y = true) (h2 : optLtB y z = true) :
    optLtB x z = true := by
  cases x <;> cases y <;> cases z <;> simp_all [optLtB]
  exact lt_trans h1 h2

theorem opt_trichotomy (x y : Option ℚ) :
    optLtB x y = true ∨ optLtB y x = true ∨ x = y := by
  cases x with
  | none =>
    cases y with
    | none => simp
    | some b => simp [optLtB]
  | some a =>
    cases y with
    | none => simp [optLtB]
    | some b =>
      simp only [optLtB, decide_eq_true_eq, Option.some.injEq]
      rcases lt_trichotomy a b with h | h | h
      · exact Or.inl h
      · exact Or.inr (Or.inr h)
      · exact Or.inr (Or.inl h)

theorem rowLe_iff (a b : TRow) : rowLe a b = true ↔
    (a.time < b.time ∨ (a.time = b.time ∧
      (optLtB (seqKey a.cells) (seqKey b.cells) = true ∨
        (seqKey a.cells = seqKey b.cells ∧ a.pos ≤ b.pos)))) := by
  rw [rowLe]
  simp [optEqB_iff, Bool.or_eq_true, Bool.and_eq_true, decide_eq_true_eq]

theorem rowLe_total (a b : TRow) : rowLe a b = true ∨ rowLe b a = true := by
  rcases lt_trichotomy a.time b.time with h | h | h
  · exact Or.inl ((rowLe_iff a b).mpr (Or.inl h))
  · rcases opt_trichotomy (seqKey a.cells) (seqKey b.cells) with hs | hs | hs
    · exact Or.inl ((rowLe_iff a b).mpr (Or.inr ⟨h, Or.inl hs⟩))
    · exact Or.inr ((rowLe_iff b a).mpr (Or.inr ⟨h.symm, Or.inl hs⟩))
    · rcases Nat.le_total a.pos b.pos with hp | hp
      · exact Or.inl ((rowLe_iff a b).mpr (Or.inr ⟨h, Or.inr ⟨hs, hp⟩⟩))
      · exact Or.inr ((rowLe_iff b a).mpr (Or.inr ⟨h.symm, Or.inr ⟨hs.symm, hp⟩⟩))
  · exact Or.inr ((rowLe_iff b a).mpr (Or.inl h))

theorem rowLe_trans (a b c : TRow) (h1 : rowLe a b = true) (h2 : rowLe b c = true) :
    rowLe a c = true := by
  rw [rowLe_iff] at h1 h2 ⊢
  rcases h1 with h1 | ⟨he1, hs1⟩
  · rcases h2 with h2 | ⟨he2, _⟩
    · exact Or.inl (lt_trans h1 h2)
    · exact Or.inl (by rw [← he2]; exact h1)
  · rcases h2 with h2 | ⟨he2, hs2⟩
    · exact Or.inl (by rw [he1]; exact h2)
    · refine Or.inr ⟨he1.trans he2, ?_⟩
      rcases hs1 with hs1 | ⟨hq1, hp1⟩
      · rcases hs2 with hs2 | ⟨hq2, _⟩
        · exact Or.inl (optLtB_trans hs1 hs2)
        · exact Or.inl (by rw [← hq2]; exact hs1)
      · rcases hs2 with hs2 | ⟨hq2, hp2⟩
        · exact Or.inl (by rw [hq1]; exact hs2)
        · exact Or.inr ⟨hq1.trans hq2, le_trans hp1 hp2⟩

theorem rowLe_imp (a b : TRow) (h : rowLe a b = true) :
    a.time ≤ b.time ∧
    (a.time = b.time →
      ∀ qa qb, seqKey a.cells = some qa → seqKey b.cells = some qb → qa ≤ qb) ∧
    (a.time = b.time → seqKey a.cells = seqKey b.cells → a.pos ≤ b.pos) := by
  rw [rowLe_iff] at h
  rcases h with h | ⟨he, hs⟩
  · exact ⟨le_of_lt h, fun he2 => absurd he2 (ne_of_lt h),
      fun he2 => absurd he2 (ne_of_lt h)⟩
  · refine ⟨le_of_eq he, ?_, ?_⟩
    · intro _ qa qb hqa hqb
      rcases hs with hs | ⟨hq, _⟩
      · rw [hqa, hqb] at hs
        simp only [optLtB, decide_eq_true_eq] at hs
        exact le_of_lt hs
      · rw [hqa, hqb] at hq
        exact le_of_eq (Option.some.inj hq)
    · intro _ hq
      rcases hs with hs | ⟨_, hp⟩
      · rw [hq, optLtB_irrefl] at hs
        cases hs
      · exact hp

theorem filterMap_pos_sublist (l : List (Nat × Row × Option ℚ)) :
    ((l.filterMap (fun p => p.2.2.map (fun t => TRow.mk p.1 p.2.1 t))).map TRow.pos).Sublist
      (l.map (fun p => p.1)) := by
  induction l with
  | nil => simp
  | cons p ps ih =>
    cases hq : p.2.2 with
    | none =>
      simp only [List.filterMap_cons, hq, Option.map_none', List.map_cons]
      exact ih.cons _
    | some t =>
      simp only [List.filterMap_cons, hq, Option.map_some', List.map_cons]
      exact ih.cons₂ _

theorem resolvedRows_map_fst (b : TimeBasis) (f : Frame) :
    (resolvedRows b f).map (fun p => p.1) = List.range f.rows.length := by
  rw [resolvedRows, List.map_map]
  exact List.enum_map_fst f.rows

/-- C5 (amended): after the plotter merger's sort, rows are ordered by
resolved timestamp non-decreasing; within equal timestamps, rows whose
`seq` cells are both numeric appear in `seq` order, and rows with
identical `seq` keys (in particular both missing) keep their original
concat positions in order; the positions are moreover pairwise
distinct, so the stable order is fully captured.  The pdf merger does
not guarantee this: its sort is reachable when a source file carries a
literal `__time` column, and then sorts by that re-parsed column alone,
with no `seq` key and no relation to the resolved time basis — see the
C5 counterexample. -/
theorem c5_sort_order (files : List Frame) (log : PlotterLog)
    (h : loadPlotter files = .ok log) :
    log.rows.Pairwise (fun a b =>
      a.time ≤ b.time ∧
      (a.time = b.time →
        ∀ qa qb, seqKey a.cells = some qa → seqKey b.cells = some qb → qa ≤ qb) ∧
      (a.time = b.time → seqKey a.cells = seqKey b.cells → a.pos ≤ b.pos)) ∧
    (log.rows.map TRow.pos).Nodup := by
  unfold loadPlotter at h
  split at h
  · cases h
  · split at h
    · cases h
    · rename_i b isLocal tz hpick
      obtain rfl := Except.ok.inj h
      constructor
      · exact (pairwise_sortByLe rowLe rowLe_trans rowLe_total _).imp
          (fun hab => rowLe_imp _ _ hab)
      · have h1 := filterMap_pos_sublist (resolvedRows b (ensureExpected (concatFrames files)))
        have h2 : ((resolvedRows b (ensureExpected (concatFrames files))).map
            (fun p => p.1)).Nodup := by
          rw [resolvedRows_map_fst]
          exact List.nodup_range _
        have h3 : ((keptRows b (ensureExpected (concatFrames files))).map TRow.pos).Nodup := by
          rw [keptRows]
          exact List.Nodup.sublist h1 h2
        exact (((perm_sortByLe rowLe _).map TRow.pos).nodup_iff).mpr h3

/-- A source file with two positive epoch rows in reverse time order. -/
def exFrameTwoEpoch : Frame :=
  { cols := ["epoch_utc"],
    rows := [[("epoch_utc", Value.num 1700000100)], [("epoch_utc", Value.num 1700000000)]] }

/-- The dataset the plotter loader builds from `exFrameTwoEpoch`: sorted
by time, so the second input row comes first. -/
def exLogTwo : PlotterLog :=
  { cols := ["epoch_utc", "schema_ver", "seq", "iso8601_local", "raw_rtd_ohms",
             "raw_temp_c", "cal_temp_c", "flags", "node_id"],
    rows := [{ pos := 1, cells := [("epoch_utc", Value.num 1700000000)], time := 1700000000 },
             { pos := 0, cells := [("epoch_utc", Value.num 1700000100)], time := 1700000100 }],
    basis := TimeBasis.epoch,
    timeIsLocal := false,
    tz := some 0,
    dropped := 0 }

/-- C5 witness: the order properties at a concrete two-row load, the
loader-result hypothesis discharged by evaluation. -/
theorem c5_sort_order_witness :
    exLogTwo.rows.Pairwise (fun a b =>
      a.time ≤ b.time ∧
      (a.time = b.time →
        ∀ qa qb, seqKey a.cells = some qa → seqKey b.cells = some qb → qa ≤ qb) ∧
      (a.time = b.time → seqKey a.cells = seqKey b.cells → a.pos ≤ b.pos)) ∧
    (exLogTwo.rows.map TRow.pos).Nodup :=
  c5_sort_order [exFrameTwoEpoch] exLogTwo (by decide)

/-- A source file that carries a literal `__time` column (so the pdf
loader's `combined[time_column]` lookup succeeds) alongside a positive
`epoch_utc` column; the literal `__time` strings order the rows
opposite to their epoch timestamps and `seq` numbers. -/
def exFrameLiteralTime : Frame :=
  { cols := ["__time", "epoch_utc", "seq"],
    rows := [[("__time", Value.text "2024-01-02 00:00:00"),
              ("epoch_utc", Value.num 100), ("seq", Value.num 1)],
             [("__time", Value.text "2024-01-01 00:00:00"),
              ("epoch_utc", Value.num 200), ("seq", Value.num 2)]] }

/-- The dataset the pdf loader builds from `exFrameLiteralTime`: the
loader succeeds (time source resolved to the epoch basis, nothing
dropped), the rows tagged with their source file and sorted by the
re-parsed literal `__time` column, placing the 2024-01-01 row first. -/
def exPdfLogLiteral : PdfLog :=
  { frame := { cols := ["__time", "epoch_utc", "seq", "__source_file"],
               rows := [[("__time", Value.text "2024-01-01 00:00:00"),
                         ("epoch_utc", Value.num 200), ("seq", Value.num 2),
                         ("__source_file", Value.text "a.csv")],
                        [("__time", Value.text "2024-01-02 00:00:00"),
                         ("epoch_utc", Value.num 100), ("seq", Value.num 1),
                         ("__source_file", Value.text "a.csv")]] },
    timeColumn := "__time",
    tz := some 0,
    dropped := 0 }

/-- C5 counterexample: the pdf merger's sort is reachable — on a source
file with a literal `__time` column the loader succeeds — and the
resulting rows are sorted by the re-parsed literal column alone: their
resolved epoch timestamps come out strictly decreasing (200 before 100)
and so do their `seq` numbers, refuting the claimed time-then-seq order
for the pdf variant on a reachable input. -/
theorem c5_counterexample :
    pdfLoadCsvFiles [("a.csv", exFrameLiteralTime)] = .ok exPdfLogLiteral ∧
    exPdfLogLiteral.frame.rows.map (fun r => resolveRow TimeBasis.epoch r) =
      [some 200, some 100] ∧
    exPdfLogLiteral.frame.rows.map (fun r => toNumeric (getCell r "seq")) =
      [some 2, some 1] ∧
    ¬((200 : ℚ) ≤ 100) := by
  refine ⟨by decide, by decide, by decide, by decide⟩
